import Mathlib

/-!
Verification of the libRSF DataSet container (src/include/DataSet.h), the
IV19_GNSS application driver (src/applications/IV19_GNSS.cpp) and the
self-tuning GMM error-model plumbing, against the natural-language
specification of the repository.

Modelling conventions:
* timestamps (C++ double) are rationals;
* a DataStream (std::multimap of timestamp to object) is a list of
  (timestamp, object) pairs kept sorted by timestamp, insertion order
  preserved among equal timestamps (the C++11 multimap guarantee);
* multimap find returns the first element of the equal range (the behaviour
  of libstdc++ and libc++, whose red-black-tree find is lower-bound based);
* iterator misuse (dereferencing end, advancing before begin) is modelled by
  a distinguished failure value; fallible queries return Option.
-/

namespace LibRSF

/-- Timestamps are real-valued seconds, modelled as rationals. -/
abbrev Time := ℚ

/-- Chronological list of arbitrary objects, the typedef DataStream,
a multimap from timestamp to object, as a sorted association list. -/
abbrev DataStream (α : Type) := List (Time × α)

variable {α : Type} {K : Type}

/-- Multimap count of key t: number of stored pairs with timestamp t. -/
def countElem (s : DataStream α) (t : Time) : Nat :=
  s.countP (fun p => decide (p.1 = t))

/-- Multimap find: index of the first element whose timestamp equals t
(libstdc++ and libc++ return the leftmost match); equals the length of the
stream when t is absent, which corresponds to the end iterator. -/
def findFirstIdx (s : DataStream α) (t : Time) : Nat :=
  match s with
  | [] => 0
  | p :: r => if p.1 = t then 0 else findFirstIdx r t + 1

/-- Multimap lower_bound: index of the first element with timestamp at or
above t; the length of the stream when there is none. -/
def lowerIdx (s : DataStream α) (t : Time) : Nat :=
  match s with
  | [] => 0
  | p :: r => if t ≤ p.1 then 0 else lowerIdx r t + 1

/-- Multimap upper_bound: index of the first element with timestamp strictly
above t; the length of the stream when there is none. -/
def upperIdx (s : DataStream α) (t : Time) : Nat :=
  match s with
  | [] => 0
  | p :: r => if t < p.1 then 0 else upperIdx r t + 1

/-- Read the timestamp stored at position i; none past the end. -/
def timeAt (s : DataStream α) (i : Nat) : Option Time :=
  (s.get? i).map Prod.fst

/-- Multimap emplace: insert at the upper bound of the equal range, so
insertion order among equal timestamps is preserved. -/
def insertUB (t : Time) (o : α) : DataStream α → DataStream α
  | [] => [(t, o)]
  | p :: r => if t < p.1 then (t, o) :: p :: r else p :: insertUB t o r

/-- The member std::map of DataSet from keys to streams, as an association
list with unique keys. -/
abbrev DataSet (K α : Type) := List (K × DataStream α)

/-- DataSet::checkID: whether a stream is stored under key k. -/
def checkID [DecidableEq K] (ds : DataSet K α) (k : K) : Bool :=
  match ds with
  | [] => false
  | (k', _) :: r => if k = k' then true else checkID r k

/-- Access the stream stored under key k (empty when the key is absent). -/
def getStreamOf [DecidableEq K] : DataSet K α → K → DataStream α
  | [], _ => []
  | (k', s) :: r, k => if k = k' then s else getStreamOf r k

/-- Apply a function to the stream stored under key k. -/
def updateStream [DecidableEq K] : DataSet K α → K → (DataStream α → DataStream α) → DataSet K α
  | [], _, _ => []
  | (k', s) :: r, k, f => if k = k' then (k', f s) :: r else (k', s) :: updateStream r k f

/-- Erase the entry of key k from the map (std::map::erase on the key). -/
def eraseKey [DecidableEq K] (ds : DataSet K α) (k : K) : DataSet K α :=
  ds.filter (fun p => decide (p.1 ≠ k))

/-- DataSet::addElement: create an empty stream when the key is new, then
emplace the object at its timestamp. -/
def addElement [DecidableEq K] (ds : DataSet K α) (k : K) (t : Time) (o : α) : DataSet K α :=
  let ds' := if checkID ds k then ds else ds ++ [(k, [])]
  updateStream ds' k (insertUB t o)

/-- DataSet::countElement: zero when the key is absent, otherwise the
multimap count at the timestamp. -/
def countElement [DecidableEq K] (ds : DataSet K α) (k : K) (t : Time) : Nat :=
  countElem (getStreamOf ds k) t

/-- DataSet::checkElement: there is an element number n at (k, t). -/
def checkElement [DecidableEq K] (ds : DataSet K α) (k : K) (t : Time) (n : Nat) : Prop :=
  n < countElement ds k t

instance [DecidableEq K] (ds : DataSet K α) (k : K) (t : Time) (n : Nat) :
    Decidable (checkElement ds k t n) := by
  unfold checkElement; infer_instance

/-- DataSet::getElement (the fallible const overload returning bool): find the
first element at the timestamp, advance by the element number, read it; fails
with none (the C++ false, together with an untouched out parameter) when no
element is stored there. -/
def getElementOpt [DecidableEq K] (ds : DataSet K α) (k : K) (t : Time) (n : Nat) : Option α :=
  let s := getStreamOf ds k
  if n < countElem s t then (s.get? (findFirstIdx s t + n)).map Prod.snd else none

/-- DataSet::removeElement with an element number: erase the n-th element of
the equal range at t, then erase the key when its stream became empty; prints
an error and changes nothing when the element does not exist. -/
def removeElement [DecidableEq K] (ds : DataSet K α) (k : K) (t : Time) (n : Nat) : DataSet K α :=
  if checkElement ds k t n then
    let ds' := updateStream ds k (fun s => s.eraseIdx (findFirstIdx s t + n))
    if (getStreamOf ds' k).isEmpty then eraseKey ds' k else ds'
  else ds

/-- The objects stored at (k, t), in stream order. -/
def elemsAt [DecidableEq K] (ds : DataSet K α) (k : K) (t : Time) : List α :=
  ((getStreamOf ds k).filter (fun p => decide (p.1 = t))).map Prod.snd

/-- DataSet::getTimeNext: requires an element at t, then reads upper_bound;
none when the upper bound is the end iterator or t itself is absent. -/
def getTimeNext (s : DataStream α) (t : Time) : Option Time :=
  if 0 < countElem s t then timeAt s (upperIdx s t) else none

/-- DataSet::getTimePrev: find(t), advance backwards by count minus one
(landing at index findFirstIdx minus (count minus 1)), test against begin,
then step back once more. The outer none models the undefined behaviour of
advancing an iterator before begin (a negative index); some none models the
C++ return value false (no previous timestamp). -/
def getTimePrev (s : DataStream α) (t : Time) : Option (Option Time) :=
  if 0 < countElem s t then
    if findFirstIdx s t < countElem s t - 1 then none
    else if findFirstIdx s t = countElem s t - 1 then some none
    else
      match timeAt s (findFirstIdx s t - (countElem s t - 1) - 1) with
      | some tp => some (some tp)
      | none => none
  else some none

/-- DataSet::getTimeCloseTo: lower_bound, then a dereference of the iterator
before any end check. The outer none models the undefined behaviour of
reading the end iterator; some none models the C++ return value false. -/
def getTimeCloseTo (s : DataStream α) (t : Time) : Option (Option Time) :=
  if s.isEmpty then some none
  else
    match timeAt s (lowerIdx s t) with
    | none => none
    | some ti =>
      if ti = t then some (some ti)
      else if lowerIdx s t = 0 then some (some ti)
      else
        match getTimePrev s ti with
        | none => none
        | some none => some none
        | some (some tb) => if ti - t ≤ t - tb then some (some ti) else some (some tb)

/-! Auxiliary lemmas about the stream primitives. -/

theorem lowerIdx_eq_length_of_all_lt (s : DataStream α) (t : Time)
    (h : ∀ p ∈ s, p.1 < t) : lowerIdx s t = s.length := by
  induction s with
  | nil => rfl
  | cons p r ih =>
    have hp : p.1 < t := h p (by simp)
    simp only [lowerIdx, if_neg (not_le.mpr hp), List.length_cons]
    rw [ih (fun q hq => h q (by simp [hq]))]

theorem timeAt_length (s : DataStream α) : timeAt s s.length = none := by
  simp [timeAt, List.get?_eq_none]

/-- C10: in getTimeCloseTo the lower_bound iterator is dereferenced before the
end check, so for every non-empty stream whose timestamps all lie strictly
below the query time, the read past the end (outer none) is reached. -/
theorem getTimeCloseTo_reads_past_end (s : DataStream α) (t : Time)
    (hne : s ≠ []) (hlt : ∀ p ∈ s, p.1 < t) :
    getTimeCloseTo s t = none := by
  have hidx : lowerIdx s t = s.length := lowerIdx_eq_length_of_all_lt s t hlt
  unfold getTimeCloseTo
  rw [if_neg (by simpa [List.isEmpty_iff] using hne)]
  rw [hidx, timeAt_length]

/-- Witness for C10 at the concrete stream with one element at time 1 and
query time 2. -/
theorem getTimeCloseTo_reads_past_end_witness :
    getTimeCloseTo [((1 : Time), (0 : Nat))] 2 = none :=
  getTimeCloseTo_reads_past_end [((1 : Time), (0 : Nat))] 2 (by decide)
    (by intro p hp; simp at hp; simp [hp])

theorem countElem_append (a b : DataStream α) (t : Time) :
    countElem (a ++ b) t = countElem a t + countElem b t :=
  List.countP_append _ _ _

theorem countElem_eq_zero (a : DataStream α) (t : Time)
    (h : ∀ p ∈ a, p.1 ≠ t) : countElem a t = 0 := by
  simp only [countElem, List.countP_eq_zero, decide_eq_true_eq]
  exact h

theorem countElem_pos (a : DataStream α) (t : Time) (p : Time × α)
    (hp : p ∈ a) (hpt : p.1 = t) : 0 < countElem a t := by
  simp only [countElem, List.countP_pos_iff, decide_eq_true_eq]
  exact ⟨p, hp, hpt⟩

theorem countElem_cons (p : Time × α) (r : DataStream α) (t : Time) :
    countElem (p :: r) t = countElem r t + (if p.1 = t then 1 else 0) := by
  simp [countElem, List.countP_cons]

theorem countElem_all (a : DataStream α) (t : Time)
    (h : ∀ p ∈ a, p.1 = t) : countElem a t = a.length := by
  simp only [countElem, List.countP_eq_length, decide_eq_true_eq]
  exact h

theorem findFirstIdx_append (a b : DataStream α) (t : Time)
    (h : ∀ p ∈ a, p.1 ≠ t) :
    findFirstIdx (a ++ b) t = a.length + findFirstIdx b t := by
  induction a with
  | nil => simp
  | cons p r ih =>
    have hp : p.1 ≠ t := h p (by simp)
    have ih' := ih (fun q hq => h q (by simp [hq]))
    simp only [List.cons_append, findFirstIdx, if_neg hp, List.length_cons,
      List.append_eq] at *
    omega

theorem findFirstIdx_cons_eq (p : Time × α) (r : DataStream α) (t : Time)
    (h : p.1 = t) : findFirstIdx (p :: r) t = 0 := by
  simp [findFirstIdx, h]

theorem lowerIdx_append (a b : DataStream α) (t : Time)
    (h : ∀ p ∈ a, p.1 < t) :
    lowerIdx (a ++ b) t = a.length + lowerIdx b t := by
  induction a with
  | nil => simp
  | cons p r ih =>
    have hp : p.1 < t := h p (by simp)
    have ih' := ih (fun q hq => h q (by simp [hq]))
    simp only [List.cons_append, lowerIdx, if_neg (not_le.mpr hp), List.length_cons,
      List.append_eq] at *
    omega

theorem lowerIdx_cons_le (p : Time × α) (r : DataStream α) (t : Time)
    (h : t ≤ p.1) : lowerIdx (p :: r) t = 0 := by
  simp [lowerIdx, h]

theorem upperIdx_append (a b : DataStream α) (t : Time)
    (h : ∀ p ∈ a, p.1 ≤ t) :
    upperIdx (a ++ b) t = a.length + upperIdx b t := by
  induction a with
  | nil => simp
  | cons p r ih =>
    have hp : p.1 ≤ t := h p (by simp)
    have ih' := ih (fun q hq => h q (by simp [hq]))
    simp only [List.cons_append, upperIdx, if_neg (not_lt.mpr hp), List.length_cons,
      List.append_eq] at *
    omega

theorem upperIdx_cons_lt (p : Time × α) (r : DataStream α) (t : Time)
    (h : t < p.1) : upperIdx (p :: r) t = 0 := by
  simp [upperIdx, h]

theorem timeAt_append_left (a b : DataStream α) (i : Nat) (h : i < a.length) :
    timeAt (a ++ b) i = timeAt a i := by
  simp only [timeAt, List.get?_eq_getElem?]
  rw [List.getElem?_append_left h]

theorem timeAt_append_right (a b : DataStream α) (i : Nat) (h : a.length ≤ i) :
    timeAt (a ++ b) i = timeAt b (i - a.length) := by
  simp only [timeAt, List.get?_eq_getElem?]
  rw [List.getElem?_append_right h]

/-- In a chronologically sorted stream the element at the last index carries
the largest timestamp. -/
theorem chain_le_get_last (l : DataStream α) (hl : l ≠ [])
    (hc : List.Chain' (fun p q => p.1 ≤ q.1) l) :
    ∃ q, l.get? (l.length - 1) = some q ∧ ∀ p ∈ l, p.1 ≤ q.1 := by
  induction l with
  | nil => exact absurd rfl hl
  | cons a l ih =>
    cases l with
    | nil =>
      refine ⟨a, rfl, ?_⟩
      intro p hp
      simp at hp
      simp [hp]
    | cons b r =>
      have hab : a.1 ≤ b.1 := (List.chain'_cons.mp hc).1
      obtain ⟨q, hq1, hq2⟩ := ih (by simp) (List.chain'_cons.mp hc).2
      refine ⟨q, ?_, ?_⟩
      · simpa using hq1
      · intro p hp
        rcases List.mem_cons.mp hp with h | h
        · exact h ▸ le_trans hab (hq2 b (by simp))
        · exact hq2 p h

/-- C3 (amended): for a timestamp t carrying exactly one element, whenever
getTimePrev is defined, getTimeNext of its result returns t again; the
previous timestamp may carry arbitrarily many elements. -/
theorem getTimeNext_getTimePrev_single (s1 s3 : DataStream α) (t : Time) (o : α)
    (hs1 : List.Chain' (fun p q => p.1 ≤ q.1) s1)
    (h1 : ∀ p ∈ s1, p.1 < t) (h3 : ∀ p ∈ s3, t < p.1)
    (tp : Time)
    (hprev : getTimePrev (s1 ++ (t, o) :: s3) t = some (some tp)) :
    getTimeNext (s1 ++ (t, o) :: s3) tp = some t := by
  have h1ne : ∀ p ∈ s1, p.1 ≠ t := fun p hp => ne_of_lt (h1 p hp)
  have h3ne : ∀ p ∈ s3, p.1 ≠ t := fun p hp => (ne_of_lt (h3 p hp)).symm
  have hc : countElem (s1 ++ (t, o) :: s3) t = 1 := by
    rw [countElem_append, countElem_eq_zero s1 t h1ne, countElem_cons,
      countElem_eq_zero s3 t h3ne]
    simp
  have hf : findFirstIdx (s1 ++ (t, o) :: s3) t = s1.length := by
    rw [findFirstIdx_append s1 _ t h1ne, findFirstIdx_cons_eq (t, o) s3 t rfl]
    omega
  rw [getTimePrev, hc, hf] at hprev
  simp only [Nat.sub_self, Nat.lt_irrefl, if_pos Nat.one_pos, Nat.sub_zero] at hprev
  rw [if_neg (Nat.not_lt_zero _)] at hprev
  by_cases hs1nil : s1.length = 0
  · rw [if_pos hs1nil] at hprev
    exact absurd hprev (by simp)
  · rw [if_neg hs1nil] at hprev
    have hlt : s1.length - 1 < s1.length := Nat.sub_lt (Nat.pos_of_ne_zero hs1nil) Nat.one_pos
    rw [timeAt_append_left _ _ _ hlt] at hprev
    obtain ⟨q, hq1, hq2⟩ := chain_le_get_last s1 (by
      intro hnil; exact hs1nil (by simp [hnil])) hs1
    rw [timeAt, hq1] at hprev
    simp only [Option.map_some'] at hprev
    have htp : tp = q.1 := by
      cases hprev
      rfl
    have hqmem : q ∈ s1 := List.get?_mem hq1
    have hcpos : 0 < countElem (s1 ++ (t, o) :: s3) tp := by
      rw [countElem_append]
      have : 0 < countElem s1 tp := countElem_pos s1 tp q hqmem htp.symm
      omega
    rw [getTimeNext, if_pos hcpos]
    have hupper : upperIdx (s1 ++ (t, o) :: s3) tp = s1.length := by
      rw [upperIdx_append s1 _ tp (fun p hp => htp ▸ hq2 p hp),
        upperIdx_cons_lt (t, o) s3 tp (htp ▸ h1 q hqmem)]
      omega
    rw [hupper, timeAt_append_right _ _ _ (le_refl _), Nat.sub_self]
    rfl

/-- Witness for the amended C3 on the stream with elements at times 1 and 2. -/
theorem getTimeNext_getTimePrev_single_witness :
    getTimeNext [((1 : Time), (0 : Nat)), (2, 0)] 1 = some 2 :=
  getTimeNext_getTimePrev_single [(1, 0)] [] 2 0 (by simp)
    (by intro p hp; simp at hp; simp [hp]) (by intro p hp; simp at hp) 1 (by decide)

/-- Counterexample for C3 as stated: in the chronologically sorted stream
with timestamps 1, 2, 3, 3 the timestamp 3 carries two elements; getTimePrev
of 3 is defined and returns 1 (multimap find returns the first element of the
equal range, so the backwards advance by count minus one overshoots), and
getTimeNext of 1 is defined and returns 2, not 3. -/
theorem getTimePrev_multi_breaks_roundtrip :
    getTimePrev [((1 : Time), (0 : Nat)), (2, 0), (3, 0), (3, 1)] 3 = some (some 1) ∧
    getTimeNext [((1 : Time), (0 : Nat)), (2, 0), (3, 0), (3, 1)] 1 = some 2 ∧
    (2 : Time) ≠ 3 := by
  refine ⟨by decide, by decide, by decide⟩

/-- C5 (amended): when the query time lies strictly between two adjacent
stored timestamps at equal distance, getTimeCloseTo returns the newer one,
provided the stream holds at least as many elements strictly before the newer
timestamp as the newer timestamp carries (otherwise the backwards advance
inside getTimePrev leaves the valid range and the query fails). -/
theorem getTimeCloseTo_tie_newer (s1 s2 s3 : DataStream α) (t tLo tHi : Time)
    (h1 : ∀ p ∈ s1, p.1 ≤ tLo)
    (_hLoMem : tLo ∈ s1.map Prod.fst)
    (h2 : ∀ p ∈ s2, p.1 = tHi) (h2ne : s2 ≠ [])
    (h3 : ∀ p ∈ s3, tHi < p.1)
    (hlo : tLo < t) (hhi : t < tHi)
    (heq : tHi - t = t - tLo)
    (hcnt : s2.length ≤ s1.length) :
    getTimeCloseTo (s1 ++ (s2 ++ s3)) t = some (some tHi) := by
  obtain ⟨c2, s2', rfl⟩ := List.exists_cons_of_ne_nil h2ne
  rw [List.cons_append]
  have hc2 : c2.1 = tHi := h2 c2 (by simp)
  have h2' : ∀ p ∈ s2', p.1 = tHi := fun p hp => h2 p (by simp [hp])
  have h1lt : ∀ p ∈ s1, p.1 < t := fun p hp => lt_of_le_of_lt (h1 p hp) hlo
  have hlen : s2'.length + 1 ≤ s1.length := by simpa using hcnt
  have hs1pos : 0 < s1.length := by omega
  have hlower : lowerIdx (s1 ++ c2 :: (s2' ++ s3)) t = s1.length := by
    rw [lowerIdx_append s1 _ t h1lt,
      lowerIdx_cons_le c2 _ t (hc2 ▸ le_of_lt hhi)]
    omega
  have htimeAt : timeAt (s1 ++ c2 :: (s2' ++ s3)) s1.length = some tHi := by
    rw [timeAt_append_right _ _ _ (le_refl _), Nat.sub_self]
    simp [timeAt, hc2]
  have hne1 : ∀ p ∈ s1, p.1 ≠ tHi :=
    fun p hp => ne_of_lt (lt_trans (h1lt p hp) hhi)
  have hne3 : ∀ p ∈ s3, p.1 ≠ tHi := fun p hp => (ne_of_lt (h3 p hp)).symm
  have hcount : countElem (s1 ++ c2 :: (s2' ++ s3)) tHi = s2'.length + 1 := by
    rw [countElem_append, countElem_eq_zero s1 tHi hne1, countElem_cons,
      countElem_append, countElem_all s2' tHi h2', countElem_eq_zero s3 tHi hne3,
      if_pos hc2]
    omega
  have hfind : findFirstIdx (s1 ++ c2 :: (s2' ++ s3)) tHi = s1.length := by
    rw [findFirstIdx_append s1 _ tHi hne1, findFirstIdx_cons_eq c2 _ tHi hc2]
    omega
  have hidxlt : s1.length - (s2'.length + 1) < s1.length := by omega
  have hbmem : s1.get ⟨s1.length - (s2'.length + 1), hidxlt⟩ ∈ s1 :=
    s1.get_mem _ _
  have hble : (s1.get ⟨s1.length - (s2'.length + 1), hidxlt⟩).1 ≤ tLo := h1 _ hbmem
  have hprev :
      getTimePrev (s1 ++ c2 :: (s2' ++ s3)) tHi =
        some (some ((s1.get ⟨s1.length - (s2'.length + 1), hidxlt⟩).1)) := by
    rw [getTimePrev]
    rw [if_pos (by rw [hcount]; omega)]
    rw [if_neg (by rw [hcount, hfind]; omega)]
    rw [if_neg (by rw [hcount, hfind]; omega)]
    rw [hcount, hfind]
    have hidx : s1.length - (s2'.length + 1 - 1) - 1 = s1.length - (s2'.length + 1) := by
      omega
    rw [hidx, timeAt_append_left _ _ _ hidxlt]
    rw [timeAt, List.get?_eq_get hidxlt]
    rfl
  have hempty : ¬((s1 ++ c2 :: (s2' ++ s3)).isEmpty = true) := by
    simp only [List.isEmpty_iff, List.append_eq_nil]
    rintro ⟨hnil, -⟩
    rw [hnil] at hs1pos
    simp at hs1pos
  rw [getTimeCloseTo, if_neg hempty, hlower, htimeAt]
  have hs1len : ¬(s1.length = 0) := by omega
  simp only [if_neg (ne_of_gt hhi), if_neg hs1len, hprev]
  rw [if_pos (by
    have hsub : t - tLo ≤ t - (s1.get ⟨s1.length - (s2'.length + 1), hidxlt⟩).1 := by
      exact sub_le_sub_left hble t
    linarith [heq, hsub])]

/-- Witness for the amended C5: stream with single elements at times 1 and 3,
query time 2 returns the newer timestamp 3. -/
theorem getTimeCloseTo_tie_newer_witness :
    getTimeCloseTo [((1 : Time), (0 : Nat)), (3, 0)] 2 = some (some 3) :=
  getTimeCloseTo_tie_newer [(1, 0)] [(3, 0)] [] 2 1 3
    (by intro p hp; simp at hp; simp [hp]) (by simp)
    (by intro p hp; simp at hp; simp [hp]) (by simp)
    (by intro p hp; simp at hp) (by norm_num) (by norm_num) (by norm_num)
    (by simp)

/-- Counterexample for C5 as stated: in the non-empty stream with one element
at time 1 and two elements at time 3, the query time 2 is equidistant from
the adjacent stored timestamps 1 and 3, yet getTimeCloseTo reports failure
(the backwards advance inside getTimePrev hits begin) instead of returning
the newer timestamp 3. -/
theorem getTimeCloseTo_tie_failure :
    getTimeCloseTo [((1 : Time), (0 : Nat)), (3, 0), (3, 1)] 2 = some none ∧
    (3 : Time) - 2 = 2 - 1 ∧
    getTimeCloseTo [((1 : Time), (0 : Nat)), (3, 0), (3, 1)] 2 ≠ some (some 3) := by
  refine ⟨by decide, by norm_num, by decide⟩

/-! Lemmas about the key-indexed DataSet operations. -/

theorem get?_append_add (a b : List (Time × α)) (n : Nat) :
    (a ++ b).get? (a.length + n) = b.get? n := by
  rw [List.get?_eq_getElem?, List.get?_eq_getElem?,
    List.getElem?_append_right (by omega)]
  congr 1
  omega

theorem map_eraseIdx {β γ : Type} (f : β → γ) (l : List β) (j : Nat) :
    (l.map f).eraseIdx j = (l.eraseIdx j).map f := by
  induction l generalizing j with
  | nil => simp
  | cons a l ih =>
    cases j with
    | zero => simp [List.eraseIdx]
    | succ j => simp [List.eraseIdx, ih]

theorem eraseIdx_append_add (a b : List (Time × α)) (j : Nat) :
    (a ++ b).eraseIdx (a.length + j) = a ++ b.eraseIdx j := by
  induction a with
  | nil => simp
  | cons p r ih => simp [List.eraseIdx, Nat.succ_add, ih]

theorem checkID_updateStream [DecidableEq K] (ds : DataSet K α) (k k' : K)
    (f : DataStream α → DataStream α) :
    checkID (updateStream ds k f) k' = checkID ds k' := by
  induction ds with
  | nil => rfl
  | cons p r ih =>
    obtain ⟨k0, s0⟩ := p
    by_cases hk : k = k0
    · simp [updateStream, checkID, hk]
    · by_cases hk' : k' = k0
      · simp [updateStream, checkID, hk, hk']
      · simp [updateStream, checkID, hk, hk', ih]

theorem checkID_append_self [DecidableEq K] (ds : DataSet K α) (k : K)
    (s : DataStream α) : checkID (ds ++ [(k, s)]) k = true := by
  induction ds with
  | nil => simp [checkID]
  | cons p r ih =>
    obtain ⟨k0, s0⟩ := p
    by_cases hk : k = k0 <;> simp [checkID, hk, ih]

theorem getStream_updateStream [DecidableEq K] (ds : DataSet K α) (k : K)
    (f : DataStream α → DataStream α) (hid : checkID ds k = true) :
    getStreamOf (updateStream ds k f) k = f (getStreamOf ds k) := by
  induction ds with
  | nil => simp [checkID] at hid
  | cons p r ih =>
    obtain ⟨k0, s0⟩ := p
    by_cases hk : k = k0
    · simp [updateStream, getStreamOf, hk]
    · simp only [checkID, if_neg hk] at hid
      simp [updateStream, getStreamOf, hk, ih hid]

theorem getStream_of_checkID_false [DecidableEq K] (ds : DataSet K α) (k : K)
    (hid : checkID ds k = false) : getStreamOf ds k = [] := by
  induction ds with
  | nil => rfl
  | cons p r ih =>
    obtain ⟨k0, s0⟩ := p
    by_cases hk : k = k0
    · simp [checkID, hk] at hid
    · simp only [checkID, if_neg hk] at hid
      simp [getStreamOf, hk, ih hid]

theorem getStream_append_self [DecidableEq K] (ds : DataSet K α) (k : K)
    (s : DataStream α) (hid : checkID ds k = false) :
    getStreamOf (ds ++ [(k, s)]) k = s := by
  induction ds with
  | nil => simp [getStreamOf]
  | cons p r ih =>
    obtain ⟨k0, s0⟩ := p
    by_cases hk : k = k0
    · simp [checkID, hk] at hid
    · simp only [checkID, if_neg hk] at hid
      simp [getStreamOf, hk, ih hid]

theorem getStream_addElement [DecidableEq K] (ds : DataSet K α) (k : K)
    (t : Time) (o : α) :
    getStreamOf (addElement ds k t o) k = insertUB t o (getStreamOf ds k) := by
  unfold addElement
  by_cases hid : checkID ds k = true
  · rw [if_pos hid, getStream_updateStream ds k _ hid]
  · have hid' : checkID ds k = false := by simpa using hid
    rw [if_neg (by simp [hid']), getStream_updateStream _ k _ (checkID_append_self ds k []),
      getStream_append_self ds k [] hid', getStream_of_checkID_false ds k hid']

theorem checkID_addElement [DecidableEq K] (ds : DataSet K α) (k : K)
    (t : Time) (o : α) : checkID (addElement ds k t o) k = true := by
  unfold addElement
  by_cases hid : checkID ds k = true
  · rw [if_pos hid, checkID_updateStream]
    exact hid
  · rw [if_neg (by simpa using hid), checkID_updateStream]
    exact checkID_append_self ds k []

theorem getStream_eraseKey [DecidableEq K] (ds : DataSet K α) (k : K) :
    getStreamOf (eraseKey ds k) k = [] := by
  induction ds with
  | nil => rfl
  | cons p r ih =>
    obtain ⟨k0, s0⟩ := p
    simp only [eraseKey] at ih ⊢
    rw [List.filter_cons]
    by_cases hk : k = k0
    · rw [if_neg (by simp [hk])]
      exact ih
    · have hne : ((k0, s0).1 ≠ k) := fun h => hk h.symm
      rw [if_pos (decide_eq_true hne)]
      simpa [getStreamOf, hk] using ih

theorem insertUB_append_skip (a b : DataStream α) (t : Time) (o : α)
    (h : ∀ p ∈ a, p.1 ≤ t) :
    insertUB t o (a ++ b) = a ++ insertUB t o b := by
  induction a with
  | nil => simp
  | cons p r ih =>
    have hp : p.1 ≤ t := h p (by simp)
    have ih' := ih (fun q hq => h q (by simp [hq]))
    simp only [List.cons_append, insertUB, if_neg (not_lt.mpr hp),
      List.append_eq] at *
    rw [ih']

theorem insertUB_front (b : DataStream α) (t : Time) (o : α)
    (h : ∀ p ∈ b, t < p.1) : insertUB t o b = (t, o) :: b := by
  cases b with
  | nil => rfl
  | cons p r => simp [insertUB, h p (by simp)]

/-- The application-level loop that inserts a list of objects at one
timestamp of one key, one addElement per object. -/
def addList [DecidableEq K] (ds : DataSet K α) (k : K) (t : Time) (os : List α) : DataSet K α :=
  os.foldl (fun d o => addElement d k t o) ds

theorem addList_getStream [DecidableEq K] (os : List α) (ds : DataSet K α)
    (k : K) (t : Time) (s1 blk s3 : DataStream α)
    (hs : getStreamOf ds k = s1 ++ (blk ++ s3))
    (h1 : ∀ p ∈ s1, p.1 < t) (hblk : ∀ p ∈ blk, p.1 = t)
    (h3 : ∀ p ∈ s3, t < p.1) :
    getStreamOf (addList ds k t os) k =
      s1 ++ ((blk ++ os.map (fun o => (t, o))) ++ s3) := by
  induction os generalizing ds blk with
  | nil => simpa using hs
  | cons o os ih =>
    have hstep : getStreamOf (addElement ds k t o) k =
        s1 ++ ((blk ++ [(t, o)]) ++ s3) := by
      rw [getStream_addElement, hs,
        insertUB_append_skip s1 _ t o (fun p hp => le_of_lt (h1 p hp)),
        insertUB_append_skip blk s3 t o (fun p hp => le_of_eq (hblk p hp)),
        insertUB_front s3 t o h3]
      simp
    have := ih (addElement ds k t o) (blk ++ [(t, o)]) hstep
      (by
        intro p hp
        rcases List.mem_append.mp hp with h | h
        · exact hblk p h
        · simp at h
          simp [h])
    simpa [addList, List.foldl_cons] using this

theorem checkID_addList [DecidableEq K] (os : List α) (ds : DataSet K α)
    (k : K) (t : Time) (hne : os ≠ []) :
    checkID (addList ds k t os) k = true := by
  induction os generalizing ds with
  | nil => exact absurd rfl hne
  | cons o os ih =>
    cases os with
    | nil => simpa [addList] using checkID_addElement ds k t o
    | cons o' os' =>
      simpa [addList, List.foldl_cons] using
        ih (addElement ds k t o) (by simp)

/-- Core computation of getElementOpt on a stream decomposed around the
queried timestamp: the element number indexes the equal range in stream
order. -/
theorem getElementOpt_decomp [DecidableEq K] (ds : DataSet K α) (k : K)
    (t : Time) (n : Nat) (s1 s2 s3 : DataStream α)
    (hs : getStreamOf ds k = s1 ++ (s2 ++ s3))
    (h1 : ∀ p ∈ s1, p.1 < t) (h2 : ∀ p ∈ s2, p.1 = t)
    (h3 : ∀ p ∈ s3, t < p.1) :
    getElementOpt ds k t n =
      if n < s2.length then (s2.get? n).map Prod.snd else none := by
  have h1ne : ∀ p ∈ s1, p.1 ≠ t := fun p hp => ne_of_lt (h1 p hp)
  have h3ne : ∀ p ∈ s3, p.1 ≠ t := fun p hp => (ne_of_lt (h3 p hp)).symm
  have hcnt : countElem (getStreamOf ds k) t = s2.length := by
    rw [hs, countElem_append, countElem_append, countElem_eq_zero s1 t h1ne,
      countElem_eq_zero s3 t h3ne, countElem_all s2 t h2]
    omega
  by_cases hn : n < s2.length
  · rw [getElementOpt]
    simp only [hcnt, if_pos hn]
    obtain ⟨c2, s2', rfl⟩ := List.exists_cons_of_ne_nil
      (by rintro rfl; simp at hn : s2 ≠ [])
    have hfind : findFirstIdx (getStreamOf ds k) t = s1.length := by
      rw [hs, List.cons_append, findFirstIdx_append s1 _ t h1ne,
        findFirstIdx_cons_eq c2 _ t (h2 c2 (by simp))]
      omega
    rw [hfind, hs, get?_append_add]
    rw [List.get?_eq_getElem?, List.get?_eq_getElem?,
      List.getElem?_append_left (by simpa using hn)]
  · rw [getElementOpt]
    simp only [hcnt, if_neg hn]

/-- C4: after a sequence of addElement calls at one key and timestamp on a
stream holding nothing at that timestamp, getElement with element number i
returns the i-th inserted object (insertion order), and removeElement by
element number removes exactly that element, preserving the relative order
of the surviving elements at the timestamp. -/
theorem addElement_getElement_removeElement_order [DecidableEq K]
    (ds : DataSet K α) (k : K) (t : Time) (s1 s3 : DataStream α)
    (hs : getStreamOf ds k = s1 ++ s3)
    (h1 : ∀ p ∈ s1, p.1 < t) (h3 : ∀ p ∈ s3, t < p.1)
    (os : List α) (i j : Nat) (hi : i < os.length) (hj : j < os.length) :
    getElementOpt (addList ds k t os) k t i = os.get? i ∧
    elemsAt (addList ds k t os) k t = os ∧
    elemsAt (removeElement (addList ds k t os) k t j) k t = os.eraseIdx j := by
  have hosne : os ≠ [] := by rintro rfl; simp at hi
  have hmap1 : ∀ p ∈ (os.map fun o => (t, o)), p.1 = t := by
    intro p hp
    rcases List.mem_map.mp hp with ⟨o, _, rfl⟩
    rfl
  have hstream : getStreamOf (addList ds k t os) k =
      s1 ++ (os.map (fun o => (t, o)) ++ s3) := by
    have := addList_getStream os ds k t s1 [] s3 (by simpa using hs) h1
      (by intro p hp; simp at hp) h3
    simpa using this
  have hget := getElementOpt_decomp (addList ds k t os) k t i s1 _ s3
    hstream h1 hmap1 h3
  have hfilter : ∀ (m : List α),
      (((s1 ++ (m.map (fun o => (t, o)) ++ s3)).filter
        (fun p => decide (p.1 = t))).map Prod.snd) = m := by
    intro m
    rw [List.filter_append, List.filter_append]
    have hf1 : s1.filter (fun p => decide (p.1 = t)) = [] := by
      rw [List.filter_eq_nil]
      intro p hp
      simpa using ne_of_lt (h1 p hp)
    have hf3 : s3.filter (fun p => decide (p.1 = t)) = [] := by
      rw [List.filter_eq_nil]
      intro p hp
      simpa using (ne_of_lt (h3 p hp)).symm
    have hfm : (m.map (fun o => (t, o))).filter (fun p => decide (p.1 = t)) =
        m.map (fun o => (t, o)) := by
      rw [List.filter_eq_self]
      intro p hp
      rcases List.mem_map.mp hp with ⟨o, _, rfl⟩
      simp
    rw [hf1, hf3, hfm]
    simp [List.map_map, Function.comp]
  refine ⟨?_, ?_, ?_⟩
  · rw [hget, if_pos (by simpa using hi), List.get?_map]
    simp
  · rw [elemsAt, hstream, hfilter]
  · have hcnt : countElem (getStreamOf (addList ds k t os) k) t = os.length := by
      rw [hstream, countElem_append, countElem_append,
        countElem_eq_zero s1 t (fun p hp => ne_of_lt (h1 p hp)),
        countElem_eq_zero s3 t (fun p hp => (ne_of_lt (h3 p hp)).symm),
        countElem_all _ t hmap1]
      simp
    have hchk : checkElement (addList ds k t os) k t j := by
      rw [checkElement, countElement, hcnt]
      exact hj
    obtain ⟨c2, os', rfl⟩ := List.exists_cons_of_ne_nil hosne
    have hfind : findFirstIdx (getStreamOf (addList ds k t (c2 :: os')) k) t =
        s1.length := by
      rw [hstream, List.map_cons, List.cons_append, findFirstIdx_append s1 _ t
        (fun p hp => ne_of_lt (h1 p hp)), findFirstIdx_cons_eq _ _ t rfl]
      omega
    rw [removeElement, if_pos hchk]
    have hid : checkID (addList ds k t (c2 :: os')) k = true :=
      checkID_addList _ ds k t (by simp)
    have hupd : getStreamOf
        (updateStream (addList ds k t (c2 :: os')) k
          (fun s => s.eraseIdx (findFirstIdx s t + j))) k =
        s1 ++ (((c2 :: os').eraseIdx j).map (fun o => (t, o)) ++ s3) := by
      rw [getStream_updateStream _ k _ hid, hfind, hstream, eraseIdx_append_add]
      congr 1
      have hjlt : j < ((c2 :: os').map (fun o => (t, o))).length := by
        simpa using hj
      have herase : (((c2 :: os').map (fun o => (t, o))) ++ s3).eraseIdx j =
          ((c2 :: os').map (fun o => (t, o))).eraseIdx j ++ s3 := by
        rw [List.eraseIdx_append_of_lt_length hjlt]
      rw [herase]
      congr 1
      exact map_eraseIdx _ _ j
    by_cases hemp : (getStreamOf
        (updateStream (addList ds k t (c2 :: os')) k
          (fun s => s.eraseIdx (findFirstIdx s t + j))) k).isEmpty = true
    · rw [if_pos hemp, elemsAt, getStream_eraseKey]
      rw [hupd] at hemp
      simp only [List.isEmpty_iff, List.append_eq_nil] at hemp
      obtain ⟨-, hm, -⟩ := hemp
      simp only [List.map_eq_nil] at hm
      simp [hm]
    · rw [if_neg hemp, elemsAt, hupd]
      have := hfilter ((c2 :: os').eraseIdx j)
      exact this

/-- Witness for C4: inserting 10, 20, 30 at key 0 and time 5 into the empty
DataSet, element number 1 yields the second inserted object, and removing
element number 0 leaves the survivors 20, 30 in order. -/
theorem addElement_getElement_removeElement_order_witness :
    getElementOpt (addList ([] : DataSet Nat Nat) 0 5 [10, 20, 30]) 0 5 1 = some 20 ∧
    elemsAt (addList ([] : DataSet Nat Nat) 0 5 [10, 20, 30]) 0 5 = [10, 20, 30] ∧
    elemsAt (removeElement (addList ([] : DataSet Nat Nat) 0 5 [10, 20, 30]) 0 5 0) 0 5 =
      [20, 30] :=
  addElement_getElement_removeElement_order ([] : DataSet Nat Nat) 0 5 [] []
    rfl (by intro p hp; simp at hp) (by intro p hp; simp at hp)
    [10, 20, 30] 1 0 (by decide) (by decide)

/-- C1: the fallible element accessor fails with none exactly when fewer
than the requested element number plus one objects are stored at the key and
timestamp; it never fabricates a result for an absent element, and the guard
count equals the number of stored objects there. -/
theorem getElement_notFound [DecidableEq K] (ds : DataSet K α) (k : K)
    (t : Time) (n : Nat) (s1 s2 s3 : DataStream α)
    (hs : getStreamOf ds k = s1 ++ (s2 ++ s3))
    (h1 : ∀ p ∈ s1, p.1 < t) (h2 : ∀ p ∈ s2, p.1 = t)
    (h3 : ∀ p ∈ s3, t < p.1) :
    (getElementOpt ds k t n = none ↔ ¬ checkElement ds k t n) ∧
    (elemsAt ds k t).length = countElement ds k t := by
  have hdec := getElementOpt_decomp ds k t n s1 s2 s3 hs h1 h2 h3
  have hcnt : countElement ds k t = s2.length := by
    rw [countElement, hs, countElem_append, countElem_append,
      countElem_eq_zero s1 t (fun p hp => ne_of_lt (h1 p hp)),
      countElem_eq_zero s3 t (fun p hp => (ne_of_lt (h3 p hp)).symm),
      countElem_all s2 t h2]
    omega
  constructor
  · rw [hdec, checkElement, hcnt]
    constructor
    · intro hnone
      by_cases hn : n < s2.length
      · rw [if_pos hn, List.get?_eq_get hn] at hnone
        simp at hnone
      · omega
    · intro hge
      rw [if_neg (by omega)]
  · rw [elemsAt, List.length_map, countElement, countElem,
      List.countP_eq_length_filter]

/-- Witness for C1: a DataSet holding one object at time 1 under key 0,
queried at the absent time 2. -/
theorem getElement_notFound_witness :
    (getElementOpt [((0 : Nat), [((1 : Time), (7 : Nat))])] 0 2 0 = none ↔
      ¬ checkElement [((0 : Nat), [((1 : Time), (7 : Nat))])] 0 2 0) ∧
    (elemsAt [((0 : Nat), [((1 : Time), (7 : Nat))])] 0 2).length =
      countElement [((0 : Nat), [((1 : Time), (7 : Nat))])] 0 2 :=
  getElement_notFound [((0 : Nat), [((1 : Time), (7 : Nat))])] 0 2 0
    [(1, 7)] [] [] rfl
    (by intro p hp; simp at hp; simp [hp]) (by intro p hp; simp at hp)
    (by intro p hp; simp at hp)

/-! The one-dimensional Gaussian mixture and the self-tuning error model of
the IV19_GNSS application. -/

/-- One-dimensional Gaussian mixture component. The standard deviation is
stored squared (stdDevSq), because the square root of the sample variance
leaves the rationals; the code and the spec apply the same square root to
the same quantity, so every comparison is carried out faithfully on the
squares. -/
structure GaussianComponent where
  mean : ℚ
  stdDevSq : ℚ
  weight : ℚ
deriving DecidableEq

/-- Ordered list of Gaussian components. -/
structure GaussianMixture where
  components : List GaussianComponent
deriving DecidableEq

/-- Modelled from the spec: GaussianMixture::initSpread (library code not
under src) builds K components with equal weights 1 over K, standard
deviation equal to the range (stored squared), and means spread evenly
across the interval from minus range to range when K exceeds one, at zero
when K is one. -/
def initSpread (K : Nat) (range : ℚ) : GaussianMixture :=
  GaussianMixture.mk ((List.range K).map (fun i : Nat =>
    GaussianComponent.mk
      (if K ≤ 1 then 0 else -range + 2 * range * (i : ℚ) / ((K : ℚ) - 1))
      (range ^ 2) (1 / (K : ℚ))))

/-- Modelled from the spec: addComponent appends a component at the end of
the ordered component list. -/
def addComponent (m : GaussianMixture) (c : GaussianComponent) : GaussianMixture :=
  GaussianMixture.mk (m.components ++ [c])

/-- Modelled from the spec: removeLastComponent drops the last component. -/
def removeLastComponent (m : GaussianMixture) : GaussianMixture :=
  GaussianMixture.mk m.components.dropLast

/-- Stable insertion into a list ordered by non-increasing weight. -/
def insertByWeightDesc (c : GaussianComponent) :
    List GaussianComponent → List GaussianComponent
  | [] => [c]
  | d :: r => if d.weight < c.weight then c :: d :: r else d :: insertByWeightDesc c r

/-- Insertion sort by non-increasing weight. -/
def sortListByWeightDesc : List GaussianComponent → List GaussianComponent
  | [] => []
  | c :: r => insertByWeightDesc c (sortListByWeightDesc r)

/-- Modelled from the spec: sortComponentsByWeight orders the components by
non-increasing weight, so that the caller removes the lowest-weight one by
dropping the last. -/
def sortComponentsByWeight (m : GaussianMixture) : GaussianMixture :=
  GaussianMixture.mk (sortListByWeightDesc m.components)

/-- Modelled from the spec: removeOffset shifts the means of all components
by the mean of the highest-weight component, so the dominant mode becomes
zero-centred. -/
def removeOffset (m : GaussianMixture) : GaussianMixture :=
  match sortListByWeightDesc m.components with
  | [] => m
  | c :: _ =>
    GaussianMixture.mk (m.components.map (fun d =>
      GaussianComponent.mk (d.mean - c.mean) d.stdDevSq d.weight))

/-- The sample mean of the residual window, as computed in TuneErrorModel:
sum divided by size. -/
def sampleMean (v : List ℚ) : ℚ := v.sum / v.length

/-- The population variance of the residual window, as computed in
TuneErrorModel: the squared deviations from the sample mean, summed and
divided by the size; the code stores its square root as stdev. -/
def popVariance (v : List ℚ) : ℚ :=
  (v.map (fun x => (x - sampleMean v) ^ 2)).sum / v.length

/-- The hard-cap block of the VBI branch of TuneErrorModel: when the number
of components has reached VBI_N_MAX, sort by weight and remove the last
(lowest-weight) component. -/
def tuneVBIcap (nMax : Nat) (m : GaussianMixture) : GaussianMixture :=
  if nMax ≤ m.components.length then removeLastComponent (sortComponentsByWeight m)
  else m

/-- The seeding block of the VBI branch of TuneErrorModel: spread-initialize
an empty mixture, apply the hard cap, then append one new component with
mean zero, the window standard deviation (stored squared) and weight one
over the current component count. -/
def tuneVBIseed (nMax : Nat) (m : GaussianMixture) (data : List ℚ) : GaussianMixture :=
  let m1 := if m.components.length = 0 then initSpread 1 10 else m
  let m2 := tuneVBIcap nMax m1
  addComponent m2
    (GaussianComponent.mk 0 (popVariance data) (1 / (m2.components.length : ℚ)))

/-- The full VBI branch of TuneErrorModel: seed, estimate (library code not
under src, passed in as fit), then remove the offset. -/
def tuneVBIStep (nMax : Nat) (fit : GaussianMixture → GaussianMixture)
    (m : GaussianMixture) (data : List ℚ) : GaussianMixture :=
  removeOffset (fit (tuneVBIseed nMax m data))

/-- ErrorModelType of the GNSS error model configuration. -/
inductive ErrorModelType
  | Gaussian | DCS | cDCE | GMM
deriving DecidableEq

/-- ErrorModelMixtureType of the GNSS error model configuration. -/
inductive ErrorModelMixtureType
  | MaxMix | SumMix
deriving DecidableEq

/-- ErrorModelTuningType of the GNSS error model configuration. -/
inductive ErrorModelTuningType
  | None | EM | VBI
deriving DecidableEq

/-- The GNSS error-model part of FactorGraphConfig. -/
structure FactorGraphConfig where
  modelType : ErrorModelType
  mixtureType : ErrorModelMixtureType
  tuningType : ErrorModelTuningType
deriving DecidableEq

/-- The error-model instance bound to the pseudorange factors. -/
inductive ErrorModelInstance
  | gaussianModel
  | dcsModel
  | cdceModel
  | sumMix (gmm : GaussianMixture)
  | maxMix (gmm : GaussianMixture)
deriving DecidableEq

/-- The tuner-visible state of the factor graph: the error model bound to
the Pseudorange3_ECEF factors and the unweighted residuals that
computeUnweightedError would extract. -/
structure TuneGraph where
  prModel : ErrorModelInstance
  residuals : List ℚ
deriving DecidableEq

/-- TuneErrorModel of IV19_GNSS.cpp. The estimators (GaussianMixture
estimate, library code not under src) are passed in as fitEM and fitVBI;
gmmN and nMax model the compile-time constants GMM_N and VBI_N_MAX from the
application header, which is not under src. The returned pair is the graph
and the function-local static mixture GMMAdaptive of the VBI branch. -/
def TuneErrorModel (cfg : FactorGraphConfig) (gmmN nMax : Nat)
    (fitEM fitVBI : GaussianMixture → List ℚ → GaussianMixture)
    (g : TuneGraph) (adaptive : GaussianMixture) : TuneGraph × GaussianMixture :=
  if cfg.tuningType ≠ ErrorModelTuningType.None then
    let errorData := g.residuals
    if cfg.tuningType = ErrorModelTuningType.EM then
      let gmm1 := removeOffset (fitEM (initSpread gmmN 10) errorData)
      if cfg.mixtureType = ErrorModelMixtureType.SumMix then
        (TuneGraph.mk (ErrorModelInstance.sumMix gmm1) g.residuals, adaptive)
      else
        (TuneGraph.mk (ErrorModelInstance.maxMix gmm1) g.residuals, adaptive)
    else if cfg.tuningType = ErrorModelTuningType.VBI then
      let adaptive1 := tuneVBIStep nMax (fun m => fitVBI m errorData) adaptive errorData
      if cfg.mixtureType = ErrorModelMixtureType.SumMix then
        (TuneGraph.mk (ErrorModelInstance.sumMix adaptive1) g.residuals, adaptive1)
      else
        (TuneGraph.mk (ErrorModelInstance.maxMix adaptive1) g.residuals, adaptive1)
    else (g, adaptive)
  else (g, adaptive)

/-- C9: when the configured tuning type is None, TuneErrorModel changes
nothing: whatever the estimators would compute, the graph with its error
models and the static adaptive mixture are returned untouched. -/
theorem tuneErrorModel_none_noop (cfg : FactorGraphConfig) (gmmN nMax : Nat)
    (fitEM fitVBI : GaussianMixture → List ℚ → GaussianMixture)
    (g : TuneGraph) (adaptive : GaussianMixture)
    (h : cfg.tuningType = ErrorModelTuningType.None) :
    TuneErrorModel cfg gmmN nMax fitEM fitVBI g adaptive = (g, adaptive) := by
  rw [TuneErrorModel, if_neg (by simp [h])]

/-- Witness for C9 with the configuration of the token gauss. -/
theorem tuneErrorModel_none_noop_witness :
    TuneErrorModel
      (FactorGraphConfig.mk ErrorModelType.Gaussian ErrorModelMixtureType.SumMix
        ErrorModelTuningType.None)
      3 3 (fun m _ => m) (fun m _ => m)
      (TuneGraph.mk ErrorModelInstance.gaussianModel [1, 2])
      (GaussianMixture.mk []) =
    (TuneGraph.mk ErrorModelInstance.gaussianModel [1, 2], GaussianMixture.mk []) :=
  tuneErrorModel_none_noop _ 3 3 _ _ _ _ rfl

/-! Sorting lemmas for the weight-descending component order. -/

theorem insertByWeightDesc_perm (c : GaussianComponent) (l : List GaussianComponent) :
    List.Perm (insertByWeightDesc c l) (c :: l) := by
  induction l with
  | nil => exact List.Perm.refl _
  | cons d r ih =>
    rw [insertByWeightDesc]
    by_cases h : d.weight < c.weight
    · rw [if_pos h]
    · rw [if_neg h]
      exact (ih.cons d).trans (List.Perm.swap c d r)

theorem sortListByWeightDesc_perm (l : List GaussianComponent) :
    List.Perm (sortListByWeightDesc l) l := by
  induction l with
  | nil => exact List.Perm.refl _
  | cons c r ih =>
    exact (insertByWeightDesc_perm c _).trans (ih.cons c)

theorem sortListByWeightDesc_length (l : List GaussianComponent) :
    (sortListByWeightDesc l).length = l.length :=
  (sortListByWeightDesc_perm l).length_eq

theorem insertByWeightDesc_chain (c : GaussianComponent) (l : List GaussianComponent)
    (h : List.Chain' (fun a b => b.weight ≤ a.weight) l) :
    List.Chain' (fun a b => b.weight ≤ a.weight) (insertByWeightDesc c l) := by
  induction l with
  | nil => simp [insertByWeightDesc]
  | cons d r ih =>
    rw [insertByWeightDesc]
    obtain ⟨hhead, htail⟩ := List.chain'_cons'.mp h
    by_cases hw : d.weight < c.weight
    · rw [if_pos hw]
      exact List.chain'_cons.mpr ⟨le_of_lt hw, h⟩
    · rw [if_neg hw]
      refine List.chain'_cons'.mpr ⟨?_, ih htail⟩
      intro b hb
      cases r with
      | nil =>
        simp [insertByWeightDesc] at hb
        subst hb
        exact not_lt.mp hw
      | cons e r' =>
        rw [insertByWeightDesc] at hb
        by_cases hw2 : e.weight < c.weight
        · rw [if_pos hw2] at hb
          simp at hb
          subst hb
          exact not_lt.mp hw
        · rw [if_neg hw2] at hb
          simp at hb
          subst hb
          exact hhead e (by simp)

theorem sortListByWeightDesc_chain (l : List GaussianComponent) :
    List.Chain' (fun a b => b.weight ≤ a.weight) (sortListByWeightDesc l) := by
  induction l with
  | nil => simp [sortListByWeightDesc]
  | cons c r ih => exact insertByWeightDesc_chain c _ ih

theorem chain_desc_last_min : ∀ (l : List GaussianComponent),
    List.Chain' (fun a b => b.weight ≤ a.weight) l → ∀ (hl : l ≠ []),
    ∀ x ∈ l, (l.getLast hl).weight ≤ x.weight := by
  intro l
  induction l with
  | nil => intro _ hl; exact absurd rfl hl
  | cons a l ih =>
    intro hc hl x hx
    cases l with
    | nil =>
      simp at hx
      subst hx
      simp [List.getLast]
    | cons b r =>
      obtain ⟨hab, htail⟩ := List.chain'_cons.mp hc
      have hlast : (a :: b :: r).getLast hl = (b :: r).getLast (by simp) :=
        List.getLast_cons (by simp)
      rcases List.mem_cons.mp hx with rfl | hx'
      · rw [hlast]
        exact le_trans (ih htail (by simp) b (by simp)) hab
      · rw [hlast]
        exact ih htail (by simp) x hx'

theorem removeOffset_length (m : GaussianMixture) :
    (removeOffset m).components.length = m.components.length := by
  unfold removeOffset
  cases h : sortListByWeightDesc m.components with
  | nil => rfl
  | cons c r => simp

theorem tuneVBIseed_length (nMax : Nat) (m : GaussianMixture) (data : List ℚ)
    (hmax : 1 ≤ nMax) (hm : m.components.length ≤ nMax) :
    (tuneVBIseed nMax m data).components.length ≤ nMax := by
  have hinitlen : (initSpread 1 10).components.length = 1 := by
    simp [initSpread]
  simp only [tuneVBIseed, tuneVBIcap, addComponent, removeLastComponent,
    sortComponentsByWeight, List.length_append, List.length_dropLast,
    sortListByWeightDesc_length, List.length_singleton]
  split_ifs with h1 h2 h3 <;>
    simp_all [sortListByWeightDesc_length, List.length_dropLast] <;> omega

/-- Counterexample for C2 as stated: tuning a one-component mixture on the
residual window 2, 4 (below the cap 3) appends the component with mean 0,
squared standard deviation 1 and weight 1, while the sample mean of the
window is 3 and one over (K plus one) is a half: the seeded mean is not the
sample mean and the weight is not 1 over (K plus one). -/
theorem tuneVBIseed_not_sample_mean :
    (tuneVBIseed 3 (initSpread 1 10) [2, 4]).components.getLast? =
      some (GaussianComponent.mk 0 1 1) ∧
    sampleMean [2, 4] = 3 ∧
    (GaussianComponent.mk 0 1 1).mean ≠ sampleMean [2, 4] ∧
    (GaussianComponent.mk 0 1 1).weight ≠ 1 / ((1 : ℚ) + 1) := by
  have hmean : sampleMean [2, 4] = 3 := by
    norm_num [sampleMean]
  have hvar : popVariance [2, 4] = 1 := by
    norm_num [popVariance, hmean]
  have hinit : initSpread 1 10 = GaussianMixture.mk [GaussianComponent.mk 0 100 1] := by
    have hrange : List.range 1 = [0] := by decide
    rw [initSpread, hrange]
    simp only [List.map_cons, List.map_nil, if_pos (le_refl 1)]
    norm_num
  refine ⟨?_, hmean, ?_, ?_⟩
  · simp only [tuneVBIseed, tuneVBIcap, hinit]
    norm_num [addComponent, hvar]
  · show (0 : ℚ) ≠ sampleMean [2, 4]
    rw [hmean]
    norm_num
  · show (1 : ℚ) ≠ 1 / ((1 : ℚ) + 1)
    norm_num

/-- C2 (amended): at every VBI tuning step, including the first step where
the empty static mixture is spread-initialized to one component and the
at-cap steps where the lowest-weight component is removed first, exactly one
component is appended to the adaptive mixture before estimation, seeded with
mean zero (not the sample mean of the window), squared standard deviation
equal to the population variance of the window (the code stores its square
root), and weight one over K_current, the component count at the moment of
appending, taken after the hard-cap removal: below the cap K_current is the
incoming count, at the cap it is the incoming count minus one. -/
theorem tuneVBIseed_spec (nMax : Nat) (m : GaussianMixture) (data : List ℚ) :
    ∃ m2 : GaussianMixture,
      m2 = tuneVBIcap nMax (if m.components.length = 0 then initSpread 1 10 else m) ∧
      (tuneVBIseed nMax m data).components =
        m2.components ++ [GaussianComponent.mk 0 (popVariance data)
          (1 / (m2.components.length : ℚ))] ∧
      (tuneVBIseed nMax m data).components.length = m2.components.length + 1 ∧
      (m.components ≠ [] → m.components.length < nMax → m2 = m) ∧
      (m.components ≠ [] → nMax ≤ m.components.length →
        m2.components = (sortListByWeightDesc m.components).dropLast ∧
        m2.components.length + 1 = m.components.length) ∧
      (m.components = [] → m2 = tuneVBIcap nMax (initSpread 1 10)) := by
  refine ⟨tuneVBIcap nMax (if m.components.length = 0 then initSpread 1 10 else m),
    rfl, rfl, ?_, ?_, ?_, ?_⟩
  · simp only [tuneVBIseed, tuneVBIcap, addComponent, List.length_append,
      List.length_singleton]
  · intro h0 hlt
    have h1 : ¬(m.components.length = 0) := by
      simpa [List.length_eq_zero] using h0
    rw [if_neg h1, tuneVBIcap, if_neg (not_le.mpr hlt)]
  · intro h0 hge
    have h1 : ¬(m.components.length = 0) := by
      simpa [List.length_eq_zero] using h0
    rw [if_neg h1, tuneVBIcap, if_pos hge]
    constructor
    · rfl
    · simp only [removeLastComponent, sortComponentsByWeight,
        List.length_dropLast, sortListByWeightDesc_length]
      have hpos : 0 < m.components.length := List.length_pos.mpr h0
      omega
  · intro h0
    rw [if_pos (by simp [h0])]

/-- Witness for the amended C2 at a two-component mixture standing exactly
at the hard cap two, with the residual window 2, 4: the lowest-weight
component is removed, then one component with mean zero is appended. -/
theorem tuneVBIseed_spec_witness :
    ∃ m2 : GaussianMixture,
      m2 = tuneVBIcap 2
        (if (GaussianMixture.mk [GaussianComponent.mk 0 1 (2 / 3),
            GaussianComponent.mk 8 1 (1 / 3)]).components.length = 0 then initSpread 1 10
         else GaussianMixture.mk [GaussianComponent.mk 0 1 (2 / 3),
            GaussianComponent.mk 8 1 (1 / 3)]) ∧
      (tuneVBIseed 2 (GaussianMixture.mk [GaussianComponent.mk 0 1 (2 / 3),
          GaussianComponent.mk 8 1 (1 / 3)]) [2, 4]).components =
        m2.components ++ [GaussianComponent.mk 0 (popVariance [2, 4])
          (1 / (m2.components.length : ℚ))] ∧
      (tuneVBIseed 2 (GaussianMixture.mk [GaussianComponent.mk 0 1 (2 / 3),
          GaussianComponent.mk 8 1 (1 / 3)]) [2, 4]).components.length =
        m2.components.length + 1 ∧
      ((GaussianMixture.mk [GaussianComponent.mk 0 1 (2 / 3),
          GaussianComponent.mk 8 1 (1 / 3)]).components ≠ [] →
        (GaussianMixture.mk [GaussianComponent.mk 0 1 (2 / 3),
          GaussianComponent.mk 8 1 (1 / 3)]).components.length < 2 →
        m2 = GaussianMixture.mk [GaussianComponent.mk 0 1 (2 / 3),
          GaussianComponent.mk 8 1 (1 / 3)]) ∧
      ((GaussianMixture.mk [GaussianComponent.mk 0 1 (2 / 3),
          GaussianComponent.mk 8 1 (1 / 3)]).components ≠ [] →
        2 ≤ (GaussianMixture.mk [GaussianComponent.mk 0 1 (2 / 3),
          GaussianComponent.mk 8 1 (1 / 3)]).components.length →
        m2.components = (sortListByWeightDesc
          (GaussianMixture.mk [GaussianComponent.mk 0 1 (2 / 3),
            GaussianComponent.mk 8 1 (1 / 3)]).components).dropLast ∧
        m2.components.length + 1 =
          (GaussianMixture.mk [GaussianComponent.mk 0 1 (2 / 3),
            GaussianComponent.mk 8 1 (1 / 3)]).components.length) ∧
      ((GaussianMixture.mk [GaussianComponent.mk 0 1 (2 / 3),
          GaussianComponent.mk 8 1 (1 / 3)]).components = [] →
        m2 = tuneVBIcap 2 (initSpread 1 10)) :=
  tuneVBIseed_spec 2
    (GaussianMixture.mk [GaussianComponent.mk 0 1 (2 / 3),
      GaussianComponent.mk 8 1 (1 / 3)]) [2, 4]


/-- The mixture with two components of weights three quarters and one
quarter, at the hard cap two. -/
def mixTwo : GaussianMixture :=
  GaussianMixture.mk
    [GaussianComponent.mk 5 1 (3 / 4), GaussianComponent.mk 7 1 (1 / 4)]

/-- Counterexample for C6 as stated: with the hard cap 2 and a mixture whose
component count equals (does not exceed) the cap, the code still removes the
lowest-weight component before appending: the removal condition is at or
above the cap, not strictly above. -/
theorem tuneVBIcap_removes_at_cap :
    mixTwo.components.length = 2 ∧
    tuneVBIcap 2 mixTwo = GaussianMixture.mk [GaussianComponent.mk 5 1 (3 / 4)] ∧
    tuneVBIcap 2 mixTwo ≠ mixTwo := by
  have hw : (1 / 4 : ℚ) < 3 / 4 := by norm_num
  have hsort : sortListByWeightDesc mixTwo.components =
      [GaussianComponent.mk 5 1 (3 / 4), GaussianComponent.mk 7 1 (1 / 4)] := by
    norm_num [mixTwo, sortListByWeightDesc, insertByWeightDesc]
  have hcap : tuneVBIcap 2 mixTwo =
      GaussianMixture.mk [GaussianComponent.mk 5 1 (3 / 4)] := by
    rw [tuneVBIcap, if_pos (by simp [mixTwo])]
    rw [removeLastComponent, sortComponentsByWeight, hsort]
    rfl
  refine ⟨by simp [mixTwo], hcap, ?_⟩
  rw [hcap]
  intro heq
  have hlen := congrArg (fun g => g.components.length) heq
  simp [mixTwo] at hlen

/-- C6 (amended): the hard cap bounds the component count, with removal
triggered at or above the cap: below the cap no component is removed; at or
above the cap the removed component is one of minimal weight (the last of
the weight-descending order); and after a full tuning step, for every
estimator that only prunes components, the count never exceeds the cap. -/
theorem tuneVBI_cap_spec (nMax : Nat) (m : GaussianMixture) (data : List ℚ)
    (fit : GaussianMixture → GaussianMixture)
    (hfit : ∀ g, (fit g).components.length ≤ g.components.length)
    (hmax : 1 ≤ nMax) (hm : m.components.length ≤ nMax) :
    (m.components.length < nMax → tuneVBIcap nMax m = m) ∧
    (nMax ≤ m.components.length →
      ∃ c ∈ m.components, (∀ d ∈ m.components, c.weight ≤ d.weight) ∧
        sortListByWeightDesc m.components = (tuneVBIcap nMax m).components ++ [c]) ∧
    (tuneVBIStep nMax fit m data).components.length ≤ nMax := by
  refine ⟨?_, ?_, ?_⟩
  · intro hlt
    rw [tuneVBIcap, if_neg (not_le.mpr hlt)]
  · intro hge
    have hne : m.components ≠ [] := by
      intro hnil
      rw [hnil] at hge
      simp at hge
      omega
    have hsne : sortListByWeightDesc m.components ≠ [] := by
      intro hnil
      have hpl := (sortListByWeightDesc_perm m.components).length_eq
      rw [hnil] at hpl
      simp at hpl
      exact hne (List.length_eq_zero.mp hpl.symm)
    refine ⟨(sortListByWeightDesc m.components).getLast hsne, ?_, ?_, ?_⟩
    · exact (sortListByWeightDesc_perm m.components).mem_iff.mp
        (List.getLast_mem hsne)
    · intro d hd
      exact chain_desc_last_min _ (sortListByWeightDesc_chain _) hsne d
        ((sortListByWeightDesc_perm m.components).mem_iff.mpr hd)
    · rw [tuneVBIcap, if_pos hge]
      exact (List.dropLast_append_getLast hsne).symm
  · rw [tuneVBIStep, removeOffset_length]
    exact le_trans (hfit _) (tuneVBIseed_length nMax m data hmax hm)

/-- Witness for the amended C6 at the cap-two mixture with the identity
estimator. -/
theorem tuneVBI_cap_spec_witness :
    (mixTwo.components.length < 2 → tuneVBIcap 2 mixTwo = mixTwo) ∧
    (2 ≤ mixTwo.components.length →
      ∃ c ∈ mixTwo.components, (∀ d ∈ mixTwo.components, c.weight ≤ d.weight) ∧
        sortListByWeightDesc mixTwo.components = (tuneVBIcap 2 mixTwo).components ++ [c]) ∧
    (tuneVBIStep 2 id mixTwo [0]).components.length ≤ 2 :=
  tuneVBI_cap_spec 2 mixTwo [0] id (fun g => le_refl _) (by decide) (by decide)

/-! The command-line error-model parser and the exit code of main. -/

/-- The nine recognized error-model tokens. -/
def errorModelTokens : List String :=
  ["gauss", "dcs", "cdce", "sm", "mm", "stsm", "stmm", "stsm_vbi", "stmm_vbi"]

/-- ParseErrorModel of IV19_GNSS.cpp: sets the configuration for each
recognized token (the tokens gauss, dcs and cdce leave the mixture type
untouched) and fails on everything else. -/
def ParseErrorModel (s : String) (cfg : FactorGraphConfig) : Option FactorGraphConfig :=
  if s = "gauss" then
    some { cfg with modelType := ErrorModelType.Gaussian,
                    tuningType := ErrorModelTuningType.None }
  else if s = "dcs" then
    some { cfg with modelType := ErrorModelType.DCS,
                    tuningType := ErrorModelTuningType.None }
  else if s = "cdce" then
    some { cfg with modelType := ErrorModelType.cDCE,
                    tuningType := ErrorModelTuningType.None }
  else if s = "sm" then
    some { cfg with modelType := ErrorModelType.GMM,
                    mixtureType := ErrorModelMixtureType.SumMix,
                    tuningType := ErrorModelTuningType.None }
  else if s = "mm" then
    some { cfg with modelType := ErrorModelType.GMM,
                    mixtureType := ErrorModelMixtureType.MaxMix,
                    tuningType := ErrorModelTuningType.None }
  else if s = "stsm" then
    some { cfg with modelType := ErrorModelType.GMM,
                    mixtureType := ErrorModelMixtureType.SumMix,
                    tuningType := ErrorModelTuningType.EM }
  else if s = "stmm" then
    some { cfg with modelType := ErrorModelType.GMM,
                    mixtureType := ErrorModelMixtureType.MaxMix,
                    tuningType := ErrorModelTuningType.EM }
  else if s = "stsm_vbi" then
    some { cfg with modelType := ErrorModelType.GMM,
                    mixtureType := ErrorModelMixtureType.SumMix,
                    tuningType := ErrorModelTuningType.VBI }
  else if s = "stmm_vbi" then
    some { cfg with modelType := ErrorModelType.GMM,
                    mixtureType := ErrorModelMixtureType.MaxMix,
                    tuningType := ErrorModelTuningType.VBI }
  else none

/-- The exit-code decision of main: 1 exactly when the error-model argument
does not parse, otherwise the run proceeds and returns 0. -/
def mainExitCode (errorModelArg : String) (cfg : FactorGraphConfig) : Nat :=
  if (ParseErrorModel errorModelArg cfg).isSome then 0 else 1

/-- C7: the program exits with code 1 exactly when the error-model argument
is not one of the nine case-sensitive tokens, with code 0 exactly when it is
one of them, and each recognized token sets the configuration as the
ERROR_MODEL table of the spec states (the dash entries leave the mixture
type unchanged). -/
theorem parseErrorModel_spec :
    (∀ s cfg, mainExitCode s cfg = 1 ↔ s ∉ errorModelTokens) ∧
    (∀ s cfg, mainExitCode s cfg = 0 ↔ s ∈ errorModelTokens) ∧
    (∀ cfg : FactorGraphConfig,
      ParseErrorModel "gauss" cfg =
        some { cfg with modelType := ErrorModelType.Gaussian,
                        tuningType := ErrorModelTuningType.None } ∧
      ParseErrorModel "dcs" cfg =
        some { cfg with modelType := ErrorModelType.DCS,
                        tuningType := ErrorModelTuningType.None } ∧
      ParseErrorModel "cdce" cfg =
        some { cfg with modelType := ErrorModelType.cDCE,
                        tuningType := ErrorModelTuningType.None } ∧
      ParseErrorModel "sm" cfg =
        some { cfg with modelType := ErrorModelType.GMM,
                        mixtureType := ErrorModelMixtureType.SumMix,
                        tuningType := ErrorModelTuningType.None } ∧
      ParseErrorModel "mm" cfg =
        some { cfg with modelType := ErrorModelType.GMM,
                        mixtureType := ErrorModelMixtureType.MaxMix,
                        tuningType := ErrorModelTuningType.None } ∧
      ParseErrorModel "stsm" cfg =
        some { cfg with modelType := ErrorModelType.GMM,
                        mixtureType := ErrorModelMixtureType.SumMix,
                        tuningType := ErrorModelTuningType.EM } ∧
      ParseErrorModel "stmm" cfg =
        some { cfg with modelType := ErrorModelType.GMM,
                        mixtureType := ErrorModelMixtureType.MaxMix,
                        tuningType := ErrorModelTuningType.EM } ∧
      ParseErrorModel "stsm_vbi" cfg =
        some { cfg with modelType := ErrorModelType.GMM,
                        mixtureType := ErrorModelMixtureType.SumMix,
                        tuningType := ErrorModelTuningType.VBI } ∧
      ParseErrorModel "stmm_vbi" cfg =
        some { cfg with modelType := ErrorModelType.GMM,
                        mixtureType := ErrorModelMixtureType.MaxMix,
                        tuningType := ErrorModelTuningType.VBI }) := by
  have hsome : ∀ (s : String) (cfg : FactorGraphConfig),
      (ParseErrorModel s cfg).isSome = true ↔ s ∈ errorModelTokens := by
    intro s cfg
    simp only [ParseErrorModel, errorModelTokens]
    split_ifs with h1 h2 h3 h4 h5 h6 h7 h8 h9 <;>
      simp [h1, List.mem_cons] <;> simp_all
  refine ⟨?_, ?_, ?_⟩
  · intro s cfg
    rw [mainExitCode]
    by_cases h : (ParseErrorModel s cfg).isSome = true
    · rw [if_pos h]
      simp only [(hsome s cfg).mp h]
      norm_num
    · rw [if_neg h]
      have hmem : ¬ s ∈ errorModelTokens := fun hm => h ((hsome s cfg).mpr hm)
      simp [hmem]
  · intro s cfg
    rw [mainExitCode]
    by_cases h : (ParseErrorModel s cfg).isSome = true
    · rw [if_pos h]
      simp [(hsome s cfg).mp h]
    · rw [if_neg h]
      have hmem : ¬ s ∈ errorModelTokens := fun hm => h ((hsome s cfg).mpr hm)
      simp [hmem]
  · intro cfg
    exact ⟨rfl, rfl, rfl, rfl, rfl, rfl, rfl, rfl, rfl⟩

/-! The initialization sequence of the application driver. -/

/-- The state kinds created by the driver. -/
inductive StKind
  | point3 | angle | clockError | clockDrift
deriving DecidableEq

/-- Observable events of InitGraph and of the initialization part of main,
in the order the corresponding statements execute. -/
inductive InitEvent
  | addStateSimple (k : StKind)
  | addPseudorangesSimple
  | solveSimple
  | addStateMain (k : StKind)
  | copyMeanToMain (k : StKind)
  | addPseudorangesMain
  | solveMain
  | tuneMain
  | recordFirstResult
deriving DecidableEq

/-- Event trace of InitGraph (IV19_GNSS.cpp): build and solve the throwaway
Gaussian subgraph, add the four main-graph states, copy the position and
clock-error means, add the first pseudoranges under the configured model. -/
def initGraphTrace : List InitEvent :=
  [InitEvent.addStateSimple StKind.point3,
   InitEvent.addStateSimple StKind.clockError,
   InitEvent.addPseudorangesSimple,
   InitEvent.solveSimple,
   InitEvent.addStateMain StKind.point3,
   InitEvent.addStateMain StKind.clockError,
   InitEvent.addStateMain StKind.angle,
   InitEvent.addStateMain StKind.clockDrift,
   InitEvent.copyMeanToMain StKind.point3,
   InitEvent.copyMeanToMain StKind.clockError,
   InitEvent.addPseudorangesMain]

/-- Event trace of main from the InitGraph call to the first recorded
result: solve, tune, solve, record. -/
def initToFirstResultTrace : List InitEvent :=
  initGraphTrace ++
    [InitEvent.solveMain, InitEvent.tuneMain, InitEvent.solveMain,
     InitEvent.recordFirstResult]

/-- Counterexample for C8 as stated: the claim puts the mean copy before the
Angle and ClockDrift state additions, but in the code all four main-graph
states are added first: in the actual trace the Angle state addition
precedes the position mean copy, and the trace differs from the claimed
sequence. -/
theorem initTrace_not_claimed_order :
    initToFirstResultTrace.indexOf (InitEvent.addStateMain StKind.angle) <
      initToFirstResultTrace.indexOf (InitEvent.copyMeanToMain StKind.point3) ∧
    initToFirstResultTrace ≠
      [InitEvent.addStateSimple StKind.point3,
       InitEvent.addStateSimple StKind.clockError,
       InitEvent.addPseudorangesSimple,
       InitEvent.solveSimple,
       InitEvent.addStateMain StKind.point3,
       InitEvent.addStateMain StKind.clockError,
       InitEvent.copyMeanToMain StKind.point3,
       InitEvent.copyMeanToMain StKind.clockError,
       InitEvent.addStateMain StKind.angle,
       InitEvent.addStateMain StKind.clockDrift,
       InitEvent.addPseudorangesMain,
       InitEvent.solveMain, InitEvent.tuneMain, InitEvent.solveMain,
       InitEvent.recordFirstResult] := by
  refine ⟨by decide, by decide⟩

/-- C8 (amended): initialization at the first pseudorange timestamp follows
exactly this sequence: the throwaway Gaussian-only subgraph with Point3 and
ClockError states plus the first pseudoranges is solved once; the main graph
gets Point3, ClockError, Angle and ClockDrift states; then the position and
clock-error means are copied from the throwaway graph; then the first
pseudoranges are added under the configured error model; then the main graph
is solved, tuned and solved again before the first result is recorded. -/
theorem initTrace_spec :
    initToFirstResultTrace =
      [InitEvent.addStateSimple StKind.point3,
       InitEvent.addStateSimple StKind.clockError,
       InitEvent.addPseudorangesSimple,
       InitEvent.solveSimple,
       InitEvent.addStateMain StKind.point3,
       InitEvent.addStateMain StKind.clockError,
       InitEvent.addStateMain StKind.angle,
       InitEvent.addStateMain StKind.clockDrift,
       InitEvent.copyMeanToMain StKind.point3,
       InitEvent.copyMeanToMain StKind.clockError,
       InitEvent.addPseudorangesMain,
       InitEvent.solveMain, InitEvent.tuneMain, InitEvent.solveMain,
       InitEvent.recordFirstResult] := rfl

end LibRSF
